import Mathlib

/-!
# Verification of the NearEarthObjects linking-and-query engine

A shallow embedding of `src/models.py` and `src/database.py`:
near-Earth objects (`NearEarthObject`), close approaches
(`CloseApproach`), the one-shot linking pass (`link_neo`), the
repository (`NEODatabase`) with its two exact-match indices, the lazy
predicate query (`query`), and the serialization contract
(`serialize`).  Python's in-place mutation of the shared object graph
is embedded by explicit state passing: the collection of NEOs is a
list, a live reference to an NEO is its position in that list, and a
mutation of one NEO is a positional update of the list.
-/

/-- A loosely-typed Python scalar, as the model constructors receive it
from the CSV/JSON loaders: a string, a boolean, or the `None`
singleton. -/
inductive PyVal where
  | str (s : String)
  | bool (b : Bool)
  | none
deriving DecidableEq, Repr

/-- Python's builtin `str()` conversion on a `PyVal`:
`str("x") = "x"`, `str(True) = "True"`, `str(None) = "None"`. -/
def pyStr : PyVal → String
  | .str s => s
  | .bool b => if b then "True" else "False"
  | .none => "None"

/-- Python `==` between a `PyVal` and a string literal: only a string
compares equal to a string (`True == "Y"` and `None == "Y"` are
`False`). -/
def pyEqStr : PyVal → String → Bool
  | .str s, t => s == t
  | _, _ => false

/-- `NearEarthObject` (src/models.py lines 24-71).  `approaches` holds
positions (into the database's approach collection) of the approaches
linked to this NEO; the Python list of object references is embedded
as this list of positions. -/
structure NearEarthObject where
  designation : String
  name : Option String
  hazardous : Bool
  diameter : Float
  approaches : List Nat

/-- `handle_hazard` (src/models.py lines 51-55): `True` exactly when
`pha == 'Y'`. -/
def handle_hazard (pha : PyVal) : Bool :=
  if pyEqStr pha "Y" then true else false

/-- The float NaN sentinel (`float('NaN')`). -/
def floatNaN : Float := 0.0 / 0.0

/-- `NearEarthObject.__init__` (src/models.py lines 38-71).
`self.name = str(name) or None` keeps `str(name)` unless it is the
empty string (the only falsy string), in which case `None` is stored.
The raw `diameter` is given as `Option Float`: Python's builtin
`float` parser is not repository code, so `Option.none` stands for an
empty or unparseable raw value; `validate_dia` raises on the empty
string and `float` raises on an unparseable one, and both failures
land in the `except` branch storing `float('NaN')`. -/
def NearEarthObject.init (pdes name pha : PyVal) (diameter : Option Float) :
    NearEarthObject :=
  { designation := pyStr pdes
    name := if pyStr name == "" then Option.none else some (pyStr name)
    hazardous := handle_hazard pha
    diameter := diameter.getD floatNaN
    approaches := [] }

/-- The value of a `CloseApproach`'s `neo` attribute: the `None`
singleton, the pre-link designation string (`str(des)`), or a live
reference to an NEO — embedded as the NEO's position in the database's
NEO collection. -/
inductive PyNeo where
  | none
  | str (s : String)
  | obj (i : Nat)
deriving DecidableEq, Repr

/-- Modelled from the spec: `helpers.cd_to_datetime` lives in
`helpers.py`, which is not under src/.  Per the spec (§3) it parses a
fixed "year-month-day hour:minute" calendar string into a
point-in-time value; only the value's identity matters to the claims,
so the parsed datetime is modelled by the calendar string itself. -/
def cd_to_datetime (cd : String) : String := cd

/-- Modelled from the spec: `helpers.datetime_to_str` (also from the
missing `helpers.py`) formats the datetime back to the calendar
string; on the model above it is the identity. -/
def datetime_to_str (t : String) : String := t

/-- `CloseApproach` (src/models.py lines 122-167). -/
structure CloseApproach where
  _designation : String
  time : String
  distance : Float
  velocity : Float
  neo : PyNeo

/-- `CloseApproach.__init__` (src/models.py lines 136-166).  `des` and
`cd` arrive as strings from the loader, so `str(des) = des`;
`dist`/`v_rel` are given already converted (Python's builtin `float`
is not repository code).  `validate_des` raises on a falsy (empty)
`des`, in which case the `except` branch leaves `neo = None`;
otherwise `neo` temporarily aliases the designation string. -/
def CloseApproach.init (des cd : String) (dist v_rel : Float) : CloseApproach :=
  { _designation := des
    time := cd_to_datetime cd
    distance := dist
    velocity := v_rel
    neo := if des == "" then PyNeo.none else PyNeo.str des }

/-- `CloseApproach.time_str` (src/models.py lines 191-204). -/
def CloseApproach.time_str (a : CloseApproach) : String :=
  datetime_to_str a.time

/-- The Python exceptions the serialization path can raise:
`ValueError` (explicitly raised on a bad extension) and
`AttributeError` (Python's runtime error for attribute access on a
value without that attribute, e.g. `None.designation`). -/
inductive PyErr where
  | valueError
  | attributeError
deriving DecidableEq, Repr

/-- The NEO sub-record of the JSON-shaped serialized dictionary. -/
structure NeoRec where
  designation : String
  name : Option String
  diameter_km : Float
  potentially_hazardous : Bool

/-- The flat (CSV-shaped) serialized dictionary. -/
structure FlatRec where
  datetime_utc : String
  distance_au : Float
  velocity_km_s : Float
  designation : String
  name : Option String
  diameter_km : Float
  potentially_hazardous : Bool

/-- The nested (JSON-shaped) serialized dictionary: the NEO fields are
grouped under the `neo` key. -/
structure NestedRec where
  datetime_utc : String
  distance_au : Float
  velocity_km_s : Float
  neo : NeoRec

/-- A serialized dictionary: flat for `'csv'`, nested for `'json'`. -/
inductive SerDict where
  | flat (r : FlatRec)
  | nested (r : NestedRec)

/-- Python attribute access (`.designation` etc.) through the `neo`
field: it succeeds only on a live NEO reference; on the `None`
singleton or on the pre-link designation string it raises
`AttributeError` (Python runtime semantics — neither `None` nor `str`
has these attributes).  A dangling position cannot arise from the
constructor, but is mapped to the same error for totality. -/
def PyNeo.deref (neos : List NearEarthObject) : PyNeo → Except PyErr NearEarthObject
  | .obj i =>
      match neos[i]? with
      | some n => .ok n
      | Option.none => .error .attributeError
  | _ => .error .attributeError

/-- `CloseApproach.serialize` (src/models.py lines 228-267): the
`'csv'` branch builds the flat dictionary, the `'json'` branch the
nested one (both read the linked NEO's attributes through `self.neo`,
raising `AttributeError` when `neo` is unresolved), and any other
extension raises `ValueError`.  `neos` is the shared NEO collection
the live references point into. -/
def CloseApproach.serialize (a : CloseApproach) (neos : List NearEarthObject)
    (extension : String) : Except PyErr SerDict :=
  if extension == "csv" then
    match a.neo.deref neos with
    | .ok n =>
        .ok (.flat
          { datetime_utc := a.time_str
            distance_au := a.distance
            velocity_km_s := a.velocity
            designation := n.designation
            name := n.name
            diameter_km := n.diameter
            potentially_hazardous := n.hazardous })
    | .error e => .error e
  else if extension == "json" then
    match a.neo.deref neos with
    | .ok n =>
        .ok (.nested
          { datetime_utc := a.time_str
            distance_au := a.distance
            velocity_km_s := a.velocity
            neo :=
              { designation := n.designation
                name := n.name
                diameter_km := n.diameter
                potentially_hazardous := n.hazardous } })
    | .error e => .error e
  else
    .error .valueError

/-- Positional update of the shared NEO collection: Python's in-place
mutation of the object at position `i`. -/
def updateAt (i : Nat) (f : α → α) : List α → List α
  | [] => []
  | x :: xs =>
      match i with
      | 0 => f x :: xs
      | i' + 1 => x :: updateAt i' f xs

/-- `CloseApproach.link_neo` (src/models.py lines 168-189) as a state
transformer.  `neosDict` is the `neo_by_designation` dictionary
(designation → position of the mapped NEO), `j` is this approach's own
position in the database's approach collection (the identity Python
gives it by object reference), and `neos` is the current state of the
shared NEO collection.  On a hit the approach's `neo` is set to the
found NEO and the approach is appended to that NEO's `approaches`;
on a miss `neo` is set to `None`. -/
def CloseApproach.link_neo (neosDict : String → Option Nat) (j : Nat)
    (neos : List NearEarthObject) (a : CloseApproach) :
    List NearEarthObject × CloseApproach :=
  match neosDict a._designation with
  | some i =>
      (updateAt i (fun n => { n with approaches := n.approaches ++ [j] }) neos,
       { a with neo := PyNeo.obj i })
  | Option.none => (neos, { a with neo := PyNeo.none })

/-- The index held by a Python dict comprehension `{key i : i for i in neos}`
after all insertions: the position of the *last* element whose key
matches (later insertions overwrite earlier ones). -/
def lastIdxWith (p : α → Bool) : List α → Option Nat
  | [] => Option.none
  | x :: xs =>
      match lastIdxWith p xs with
      | some i => some (i + 1)
      | Option.none => if p x then some 0 else Option.none

/-- The list comprehension `[i.link_neo(dict) for i in approaches]`:
each approach, paired with its position `j`, is linked in order, the
NEO-collection state threading through. -/
def linkAll (neosDict : String → Option Nat) :
    List NearEarthObject → List (Nat × CloseApproach) →
    List NearEarthObject × List CloseApproach
  | neos, [] => (neos, [])
  | neos, (j, a) :: rest =>
      let st := CloseApproach.link_neo neosDict j neos a
      let st' := linkAll neosDict st.1 rest
      (st'.1, st.2 :: st'.2)

/-- The per-approach result of the linking pass on the approach
itself (the `neo` attribute `link_neo` stores, the NEO-collection
state left aside): the resolved reference on a dictionary hit, the
`None` singleton on a miss. -/
def linkedRef (neosDict : String → Option Nat) (a : CloseApproach) : CloseApproach :=
  match neosDict a._designation with
  | some i => { a with neo := PyNeo.obj i }
  | Option.none => { a with neo := PyNeo.none }

/-- `NEODatabase` (src/database.py lines 17-68).  The two dict
comprehensions are embedded as lookup functions into the NEO
collection (`lastIdxWith` realizes the dict's last-write-wins
insertion); `neos` is the final (post-linking) state of the supplied
NEO objects, position-for-position. -/
structure NEODatabase where
  neo_by_name : Option String → Option Nat
  neo_by_designation : String → Option Nat
  neos : List NearEarthObject
  _approaches : List CloseApproach
  _neos : List PyNeo

/-- `NEODatabase.__init__` (src/database.py lines 27-68): build the
two indices from the supplied NEOs, then link every approach in order
(mutating the shared NEOs), then record `_approaches` and
`_neos = [i.neo for i in self._approaches]`. -/
def NEODatabase.init (neos : List NearEarthObject)
    (approaches : List CloseApproach) : NEODatabase :=
  let byName : Option String → Option Nat :=
    fun k => lastIdxWith (fun n => n.name == k) neos
  let byDes : String → Option Nat :=
    fun k => lastIdxWith (fun n => n.designation == k) neos
  let st := linkAll byDes neos approaches.enum
  { neo_by_name := byName
    neo_by_designation := byDes
    neos := st.1
    _approaches := st.2
    _neos := st.2.map (·.neo) }

/-- `NEODatabase.get_neo_by_designation` (src/database.py lines
70-89): exact-match lookup in the designation index, `None` on a
miss.  The returned NEO is the live (final-state) object. -/
def NEODatabase.get_neo_by_designation (db : NEODatabase)
    (designation : String) : Option NearEarthObject :=
  match db.neo_by_designation designation with
  | some i => db.neos[i]?
  | Option.none => Option.none

/-- `NEODatabase.get_neo_by_name` (src/database.py lines 91-110):
exact-match lookup in the name index, `None` on a miss.  The key is an
`Option String` because the stored keys are the NEOs' `name`
attributes, which may be the `None` singleton. -/
def NEODatabase.get_neo_by_name (db : NEODatabase)
    (name : Option String) : Option NearEarthObject :=
  match db.neo_by_name name with
  | some i => db.neos[i]?
  | Option.none => Option.none

/-- `NEODatabase.query` (src/database.py lines 112-141): with no
filters the full `_approaches` collection is produced in internal
order; otherwise each filter wraps the stream in `filter(_filter, ·)`,
and the produced (lazy, order-preserving) stream is embedded as the
list of elements it yields. -/
def NEODatabase.query (db : NEODatabase)
    (filters : List (CloseApproach → Bool)) : List CloseApproach :=
  let approaches := db._approaches
  let approaches :=
    if filters.isEmpty then approaches
    else filters.foldl (fun acc f => acc.filter f) approaches
  approaches

/-! ## Supporting lemmas -/

/-- A hit in a dict-comprehension index points at an element of the
underlying list that satisfies the key predicate. -/
theorem lastIdxWith_spec (p : α → Bool) :
    ∀ (l : List α) (i : Nat), lastIdxWith p l = some i →
      ∃ x, l[i]? = some x ∧ p x = true := by
  intro l
  induction l with
  | nil => intro i h; simp [lastIdxWith] at h
  | cons x xs ih =>
    intro i h
    simp only [lastIdxWith] at h
    cases hr : lastIdxWith p xs with
    | some i0 =>
      rw [hr] at h
      injection h with h
      subst h
      obtain ⟨y, hy, hp⟩ := ih i0 hr
      exact ⟨y, by simpa using hy, hp⟩
    | none =>
      rw [hr] at h
      by_cases hp : p x
      · rw [if_pos hp] at h
        injection h with h
        subst h
        exact ⟨x, by simp, hp⟩
      · rw [if_neg hp] at h
        exact absurd h (by simp)

/-- Reading back a positional update. -/
theorem updateAt_getElem? (f : α → α) :
    ∀ (l : List α) (i k : Nat),
      (updateAt i f l)[k]? = if k = i then l[k]?.map f else l[k]? := by
  intro l
  induction l with
  | nil => intro i k; simp [updateAt]
  | cons x xs ih =>
    intro i k
    cases i with
    | zero =>
      cases k with
      | zero => simp [updateAt]
      | succ k => simp [updateAt]
    | succ i =>
      cases k with
      | zero => simp [updateAt]
      | succ k => simpa [updateAt] using ih i k

/-- The approach collection produced by the linking pass: every
approach is replaced by its `linkedRef`, in order; the threaded
NEO-collection state plays no role in it. -/
theorem linkAll_snd (d : String → Option Nat) :
    ∀ (pas : List (Nat × CloseApproach)) (neos : List NearEarthObject),
      (linkAll d neos pas).2 = pas.map (fun ja => linkedRef d ja.2) := by
  intro pas
  induction pas with
  | nil => intro neos; rfl
  | cons ja rest ih =>
    intro neos
    obtain ⟨j, a⟩ := ja
    simp only [linkAll, List.map_cons]
    refine congrArg₂ _ ?_ (ih _)
    cases hd : d a._designation <;>
      simp [CloseApproach.link_neo, linkedRef, hd]

/-- The NEO-collection state after the linking pass: the NEO at
position `i` has received, appended in input order, exactly the
positions of the approaches whose designation the dictionary resolves
to `i`. -/
theorem linkAll_fst_getElem? (d : String → Option Nat) :
    ∀ (pas : List (Nat × CloseApproach)) (neos : List NearEarthObject) (i : Nat),
      (linkAll d neos pas).1[i]? =
        neos[i]?.map (fun n =>
          { n with approaches := n.approaches ++
              (pas.filter (fun ja => decide (d ja.2._designation = some i))).map Prod.fst }) := by
  intro pas
  induction pas with
  | nil =>
    intro neos i
    simp only [linkAll, List.filter_nil, List.map_nil, List.append_nil]
    cases neos[i]? <;> rfl
  | cons ja rest ih =>
    intro neos i
    obtain ⟨j, a⟩ := ja
    simp only [linkAll]
    cases hd : d a._designation with
    | none =>
      rw [show (CloseApproach.link_neo d j neos a).1 = neos by
            simp [CloseApproach.link_neo, hd]]
      rw [ih neos i, List.filter_cons]
      simp [hd]
    | some i0 =>
      rw [show (CloseApproach.link_neo d j neos a).1 =
            updateAt i0 (fun n => { n with approaches := n.approaches ++ [j] }) neos by
            simp [CloseApproach.link_neo, hd]]
      rw [ih _ i, updateAt_getElem?]
      by_cases hik : i = i0
      · subst hik
        rw [if_pos rfl]
        have hpred :
            (fun ja : Nat × CloseApproach =>
              decide (d ja.2._designation = some i)) (j, a) = true := by
          simp [hd]
        have hf :
            List.filter (fun ja : Nat × CloseApproach =>
                decide (d ja.2._designation = some i)) ((j, a) :: rest) =
              (j, a) :: List.filter (fun ja : Nat × CloseApproach =>
                decide (d ja.2._designation = some i)) rest :=
          List.filter_cons_of_pos hpred
        rw [hf]
        cases neos[i]? with
        | none => rfl
        | some n => simp [List.append_assoc]
      · rw [if_neg hik]
        have hpred :
            (fun ja : Nat × CloseApproach =>
              decide (d ja.2._designation = some i)) (j, a) = false := by
          simp only [decide_eq_false_iff_not, hd]
          exact fun h => hik (Option.some.inj h).symm
        rw [List.filter_cons_of_neg]
        simp [hpred]

/-- Two chained `filter` passes keep exactly the elements passing the
in-order conjunction of the two predicates. -/
theorem filter_filter_and (p q : α → Bool) :
    ∀ l : List α, (l.filter p).filter q = l.filter (fun x => p x && q x) := by
  intro l
  induction l with
  | nil => rfl
  | cons x xs ih =>
    cases hp : p x <;> cases hq : q x <;>
      simp [List.filter_cons, hp, hq, ih]

/-- Folding the filter chain over the predicate list keeps exactly the
elements on which every predicate holds, evaluated via the in-order
short-circuit conjunction `List.all`, preserving element order. -/
theorem foldl_filter (fs : List (α → Bool)) :
    ∀ l : List α,
      fs.foldl (fun acc f => acc.filter f) l =
        l.filter (fun x => fs.all (fun f => f x)) := by
  induction fs with
  | nil => intro l; simp
  | cons f rest ih =>
    intro l
    simp only [List.foldl_cons, List.all_cons]
    rw [ih (l.filter f), filter_filter_and]

/-! ## Claims -/

/-- C3: for every constructed database, `query` with an empty filter
collection yields exactly the full stored `_approaches` collection —
same elements, same internal order, same count.  The embedding's
`query` is a pure function of the database and the filters, which is
also the content of the repeatability half of the claim: each
invocation rebuilds the stream from `_approaches`, so two calls with
the same filters denote the same sequence and share no exhausted
iterator state. -/
theorem claim3_query_empty (neos0 : List NearEarthObject)
    (apprs : List CloseApproach) :
    (NEODatabase.init neos0 apprs).query [] =
      (NEODatabase.init neos0 apprs)._approaches := rfl

/-- C4: for every database and every non-empty filter list, `query`
yields exactly the approaches on which every predicate returns true,
with the predicates combined by `List.all` — the in-order,
short-circuit conjunction (`(f :: fs).all p = p f && fs.all p`, and
`&&` does not look at its right operand when the left is `false`),
matching the behavior of the chained lazy `filter` objects. -/
theorem claim4_query_filters (neos0 : List NearEarthObject)
    (apprs : List CloseApproach) (fs : List (CloseApproach → Bool))
    (hne : fs ≠ []) :
    (NEODatabase.init neos0 apprs).query fs =
      (NEODatabase.init neos0 apprs)._approaches.filter
        (fun a => fs.all (fun f => f a)) ∧
    ∀ a, a ∈ (NEODatabase.init neos0 apprs).query fs ↔
      a ∈ (NEODatabase.init neos0 apprs)._approaches ∧ ∀ f ∈ fs, f a = true := by
  have hq : (NEODatabase.init neos0 apprs).query fs =
      (NEODatabase.init neos0 apprs)._approaches.filter
        (fun a => fs.all (fun f => f a)) := by
    cases fs with
    | nil => exact absurd rfl hne
    | cons f fs' =>
      simp only [NEODatabase.query, List.isEmpty_cons]
      rw [if_neg (by simp)]
      exact foldl_filter _ _
  refine ⟨hq, fun a => ?_⟩
  rw [hq, List.mem_filter]
  simp [List.all_eq_true]

/-- C4 witness: a concrete database and a concrete one-predicate
filter list, instantiating the filtered-query characterization. -/
theorem claim4_witness :
    (NEODatabase.init
        [NearEarthObject.init (.str "2000433") (.str "Eros") (.str "N") (some 16.84)]
        [CloseApproach.init "2000433" "1900-Dec-27 01:30" 0.15 17.06]).query
      [fun a => a._designation == "2000433"] =
    (NEODatabase.init
        [NearEarthObject.init (.str "2000433") (.str "Eros") (.str "N") (some 16.84)]
        [CloseApproach.init "2000433" "1900-Dec-27 01:30" 0.15 17.06])._approaches.filter
      (fun a => [fun a : CloseApproach => a._designation == "2000433"].all
        (fun f => f a)) :=
  (claim4_query_filters _ _ _ (List.cons_ne_nil _ _)).1

/-- C10: the constructed NEO's `hazardous` attribute is `true` exactly
when the raw `pha` input is the string `"Y"`; every other value — the
strings `"y"`, `"N"`, `"True"`, the empty string, the boolean `True`,
the `None` singleton — yields `false`, because `handle_hazard` tests
Python equality with `'Y'` and nothing but that string compares equal
to it. -/
theorem claim10_hazard_flag (pdes name pha : PyVal) (dia : Option Float) :
    (NearEarthObject.init pdes name pha dia).hazardous = true ↔
      pha = PyVal.str "Y" := by
  cases pha with
  | str s => simp [NearEarthObject.init, handle_hazard, pyEqStr]
  | bool b => simp [NearEarthObject.init, handle_hazard, pyEqStr]
  | none => simp [NearEarthObject.init, handle_hazard, pyEqStr]

/-- C8: for every linked approach (a live `neo` reference into the
NEO collection), `serialize` with `'csv'` returns the flat record of
time string, distance and velocity plus the linked NEO's designation,
name, diameter and hazard flag; `'json'` returns the same fields with
the NEO's fields grouped under the nested `neo` sub-record; any other
extension raises `ValueError` to the caller. -/
theorem claim8_serialize (neos : List NearEarthObject) (a : CloseApproach)
    (i : Nat) (n : NearEarthObject)
    (hlink : a.neo = PyNeo.obj i) (hn : neos[i]? = some n) :
    a.serialize neos "csv" =
      Except.ok (SerDict.flat
        { datetime_utc := a.time_str
          distance_au := a.distance
          velocity_km_s := a.velocity
          designation := n.designation
          name := n.name
          diameter_km := n.diameter
          potentially_hazardous := n.hazardous }) ∧
    a.serialize neos "json" =
      Except.ok (SerDict.nested
        { datetime_utc := a.time_str
          distance_au := a.distance
          velocity_km_s := a.velocity
          neo :=
            { designation := n.designation
              name := n.name
              diameter_km := n.diameter
              potentially_hazardous := n.hazardous } }) ∧
    ∀ ext, ext ≠ "csv" → ext ≠ "json" →
      a.serialize neos ext = Except.error PyErr.valueError := by
  refine ⟨?_, ?_, ?_⟩
  · simp [CloseApproach.serialize, PyNeo.deref, hlink, hn]
  · simp [CloseApproach.serialize, PyNeo.deref, hlink, hn]
  · intro ext h1 h2
    simp [CloseApproach.serialize, h1, h2]

/-- C8 witness: a concrete linked approach serialized against a
one-NEO collection, plus the error on the unrecognized extension
`'xml'`. -/
theorem claim8_witness :
    (CloseApproach.mk "2000433" "1900-Dec-27 01:30" 0.15 17.06
        (PyNeo.obj 0)).serialize
      [NearEarthObject.init (.str "2000433") (.str "Eros") (.str "N") (some 16.84)]
      "csv" =
      Except.ok (SerDict.flat
        { datetime_utc := "1900-Dec-27 01:30"
          distance_au := 0.15
          velocity_km_s := 17.06
          designation := "2000433"
          name := some "Eros"
          diameter_km := 16.84
          potentially_hazardous := false }) ∧
    (CloseApproach.mk "2000433" "1900-Dec-27 01:30" 0.15 17.06
        (PyNeo.obj 0)).serialize
      [NearEarthObject.init (.str "2000433") (.str "Eros") (.str "N") (some 16.84)]
      "xml" = Except.error PyErr.valueError :=
  ⟨(claim8_serialize _ _ 0
      (NearEarthObject.init (.str "2000433") (.str "Eros") (.str "N") (some 16.84))
      rfl rfl).1,
   (claim8_serialize _ _ 0
      (NearEarthObject.init (.str "2000433") (.str "Eros") (.str "N") (some 16.84))
      rfl rfl).2.2 "xml" (by decide) (by decide)⟩

/-- C9 counterexample: an approach whose designation resolves to no
NEO comes out of the database construction with `neo = None`, and
serializing it with the valid `'csv'` extension fails with the generic
`AttributeError` raised by dereferencing the null `neo` reference —
not with any dedicated `UnlinkedApproach` error, which the code does
not define (the embedding's error type `PyErr` has no such value). -/
theorem claim9_counterexample :
    (NEODatabase.init []
        [CloseApproach.init "UNKNOWN-ID" "1900-Jan-01 00:00" 0.5 3.2])._approaches.map
      (fun a => a.serialize
        (NEODatabase.init []
          [CloseApproach.init "UNKNOWN-ID" "1900-Jan-01 00:00" 0.5 3.2]).neos
        "csv") = [Except.error PyErr.attributeError] := rfl

/-- C9 as amended: serialization of an approach whose `neo` reference
is unresolved (`None`) fails, for both valid extensions, by
propagating the null reference into attribute access, i.e. with
Python's `AttributeError`; the code defines no dedicated
`UnlinkedApproach` error. -/
theorem claim9_unlinked_attribute_error (neos : List NearEarthObject)
    (a : CloseApproach) (h : a.neo = PyNeo.none) :
    a.serialize neos "csv" = Except.error PyErr.attributeError ∧
    a.serialize neos "json" = Except.error PyErr.attributeError := by
  constructor <;> simp [CloseApproach.serialize, PyNeo.deref, h]

/-- C9 witness: the amended statement instantiated on a concrete
unlinked approach. -/
theorem claim9_witness :
    (CloseApproach.mk "UNKNOWN-ID" "1900-Jan-01 00:00" 0.5 3.2
        PyNeo.none).serialize [] "csv" = Except.error PyErr.attributeError ∧
    (CloseApproach.mk "UNKNOWN-ID" "1900-Jan-01 00:00" 0.5 3.2
        PyNeo.none).serialize [] "json" = Except.error PyErr.attributeError :=
  claim9_unlinked_attribute_error [] _ rfl

/-- C2: evaluation at the failing input.  A database holding one NEO
constructed with an empty name (stored name: the `None` sentinel)
resolves a name lookup with the `None` singleton to that NEO — the
unnamed NEO contributes a `None` entry to the name index, so the
lookup does not return "not found", contradicting both the claim and
`get_neo_by_name`'s own docstring ("No NEOs are associated with the
empty string nor with the `None` singleton"). -/
theorem claim2_lookup_none_bug :
    ((NEODatabase.init
        [NearEarthObject.init (.str "X") (.str "") (.str "N") Option.none]
        []).get_neo_by_name Option.none).isSome = true ∧
    (NEODatabase.init
        [NearEarthObject.init (.str "X") (.str "") (.str "N") Option.none]
        []).get_neo_by_name Option.none =
      (NEODatabase.init
        [NearEarthObject.init (.str "X") (.str "") (.str "N") Option.none]
        []).get_neo_by_designation "X" := ⟨rfl, rfl⟩

/-- C6: evaluation at the failing inputs.  Constructing an NEO with
the absent (`None`) name stores the literal string `"None"` —
`str(None)` is truthy, so `str(name) or None` does not normalize it —
while the empty name is normalized to the `None` sentinel; moreover
the `"None"`-named NEO is returned by a name lookup for `"None"`, and
an NEO carrying the no-name sentinel is returned by a name lookup
with the `None` singleton, so the sentinel does match lookups. -/
theorem claim6_absent_name_bug :
    (NearEarthObject.init (.str "X") PyVal.none (.str "N") Option.none).name =
      some "None" ∧
    (NearEarthObject.init (.str "X") (.str "") (.str "N") Option.none).name =
      Option.none ∧
    ((NEODatabase.init
        [NearEarthObject.init (.str "X") PyVal.none (.str "N") Option.none]
        []).get_neo_by_name (some "None")).isSome = true ∧
    ((NEODatabase.init
        [NearEarthObject.init (.str "X3") (.str "") (.str "N") Option.none]
        []).get_neo_by_name Option.none).isSome = true :=
  ⟨rfl, rfl, rfl, rfl⟩

/-- C7: linking is not idempotent.  Running `link_neo` a second time
on an already-linked approach whose designation still resolves (the
designation is unchanged by linking, so it resolves exactly as
before) appends the approach's position `j` to the mapped NEO's
`approaches` a second time: the NEO at position `i` ends with
`... ++ [j, j]`.  No internal check re-validates the single-use
precondition. -/
theorem claim7_relink_double_append (d : String → Option Nat) (j i : Nat)
    (neos : List NearEarthObject) (a : CloseApproach)
    (hres : d a._designation = some i) :
    (CloseApproach.link_neo d j
        (CloseApproach.link_neo d j neos a).1
        (CloseApproach.link_neo d j neos a).2).1[i]? =
      neos[i]?.map (fun n =>
        { n with approaches := n.approaches ++ [j, j] }) := by
  have h1 : CloseApproach.link_neo d j neos a =
      (updateAt i (fun n => { n with approaches := n.approaches ++ [j] }) neos,
       { a with neo := PyNeo.obj i }) := by
    simp [CloseApproach.link_neo, hres]
  rw [h1]
  simp only [CloseApproach.link_neo, hres]
  rw [updateAt_getElem?, if_pos rfl, updateAt_getElem?, if_pos rfl]
  cases neos[i]? <;> simp [List.append_assoc]

/-- C7 witness: relinking a concrete already-linked approach against
the designation dictionary of a one-NEO database double-appends its
position. -/
theorem claim7_witness :
    (CloseApproach.link_neo
        (NEODatabase.init
          [NearEarthObject.init (.str "2000433") (.str "Eros") (.str "N") (some 16.84)]
          []).neo_by_designation 0
        (CloseApproach.link_neo
          (NEODatabase.init
            [NearEarthObject.init (.str "2000433") (.str "Eros") (.str "N") (some 16.84)]
            []).neo_by_designation 0
          [NearEarthObject.init (.str "2000433") (.str "Eros") (.str "N") (some 16.84)]
          (CloseApproach.init "2000433" "1900-Dec-27 01:30" 0.15 17.06)).1
        (CloseApproach.link_neo
          (NEODatabase.init
            [NearEarthObject.init (.str "2000433") (.str "Eros") (.str "N") (some 16.84)]
            []).neo_by_designation 0
          [NearEarthObject.init (.str "2000433") (.str "Eros") (.str "N") (some 16.84)]
          (CloseApproach.init "2000433" "1900-Dec-27 01:30" 0.15 17.06)).2).1[0]? =
      [NearEarthObject.init (.str "2000433") (.str "Eros") (.str "N") (some 16.84)][0]?.map
        (fun n => { n with approaches := n.approaches ++ [0, 0] }) :=
  claim7_relink_double_append _ 0 0 _ _ rfl

/-- A successful positional read is a membership. -/
theorem mem_of_getElem_some {l : List α} {n : Nat} {a : α}
    (h : l[n]? = some a) : a ∈ l := by
  obtain ⟨hlt, he⟩ := List.getElem?_eq_some.mp h
  exact he ▸ List.getElem_mem hlt

/-- The position of an approach whose designation resolves to `i`
occurs exactly once among the positions appended to the NEO at `i`
(positions in the enumerated approach list are pairwise distinct). -/
theorem linked_count_one (d : String → Option Nat) (apprs : List CloseApproach)
    (j i : Nat) (a0 : CloseApproach)
    (ha0 : apprs[j]? = some a0) (hDr : d a0._designation = some i) :
    ((apprs.enum.filter (fun ja =>
      decide (d ja.2._designation = some i))).map Prod.fst).count j = 1 := by
  apply List.count_eq_one_of_mem
  · exact (List.nodup_enum_map_fst apprs).sublist
      ((List.filter_sublist _).map Prod.fst)
  · exact List.mem_map_of_mem Prod.fst
      (List.mem_filter.mpr
        ⟨List.mk_mem_enum_iff_getElem?.mpr ha0, by simp [hDr]⟩)

/-- The position of an approach whose designation resolves to no NEO
appears among no NEO's appended positions. -/
theorem linked_not_mem (d : String → Option Nat) (apprs : List CloseApproach)
    (j i : Nat) (a0 : CloseApproach)
    (ha0 : apprs[j]? = some a0) (hmiss : d a0._designation = Option.none) :
    j ∉ (apprs.enum.filter (fun ja =>
      decide (d ja.2._designation = some i))).map Prod.fst := by
  intro hmem
  obtain ⟨ja, hjaf, hja1⟩ := List.mem_map.mp hmem
  obtain ⟨hjae, hjap⟩ := List.mem_filter.mp hjaf
  obtain ⟨j1, x⟩ := ja
  obtain rfl : j1 = j := hja1
  have hx : x = a0 := by
    have hg := List.mk_mem_enum_iff_getElem?.mp hjae
    rw [ha0] at hg
    exact (Option.some.inj hg).symm
  subst hx
  rw [decide_eq_true_eq, hmiss] at hjap
  exact Option.noConfusion hjap

/-- C1: after constructing the database once from unlinked collections
(every supplied NEO's `approaches` starts empty), every approach in
`_approaches` whose `neo` reference was resolved to the NEO at
position `i` appears exactly once (position count 1) in that NEO's
`approaches` collection, and that NEO's `designation` equals the
approach's `_designation`. -/
theorem claim1_linked_unique (neos0 : List NearEarthObject)
    (apprs : List CloseApproach)
    (hun : ∀ n ∈ neos0, n.approaches = [])
    (j i : Nat) (a : CloseApproach)
    (hj : (NEODatabase.init neos0 apprs)._approaches[j]? = some a)
    (hres : a.neo = PyNeo.obj i) :
    ∃ n, (NEODatabase.init neos0 apprs).neos[i]? = some n ∧
      n.approaches.count j = 1 ∧ n.designation = a._designation := by
  have hneos : (NEODatabase.init neos0 apprs).neos =
      (linkAll (fun k => lastIdxWith (fun n => n.designation == k) neos0)
        neos0 apprs.enum).1 := rfl
  have happ : (NEODatabase.init neos0 apprs)._approaches =
      (linkAll (fun k => lastIdxWith (fun n => n.designation == k) neos0)
        neos0 apprs.enum).2 := rfl
  rw [happ, linkAll_snd, List.getElem?_map, List.getElem?_enum] at hj
  cases ha0 : apprs[j]? with
  | none => rw [ha0] at hj; exact absurd hj (by simp)
  | some a0 =>
    rw [ha0] at hj
    have ha : linkedRef
        (fun k => lastIdxWith (fun n => n.designation == k) neos0) a0 = a := by
      simpa using hj
    have hdes_eq : a._designation = a0._designation := by
      rw [← ha]
      cases hd2 : lastIdxWith (fun n => n.designation == a0._designation) neos0 <;>
        simp [linkedRef, hd2]
    cases hDr : lastIdxWith (fun n => n.designation == a0._designation) neos0 with
    | none =>
      rw [← ha] at hres
      simp [linkedRef, hDr] at hres
    | some i0 =>
      have hii : i0 = i := by
        rw [← ha] at hres
        simp [linkedRef, hDr] at hres
        exact hres
      subst hii
      obtain ⟨x, hx, hpx⟩ := lastIdxWith_spec _ neos0 i0 hDr
      have hxdes : x.designation = a0._designation := by simpa using hpx
      have hxe : x.approaches = [] := hun x (mem_of_getElem_some hx)
      rw [hneos, linkAll_fst_getElem?, hx, Option.map_some']
      refine ⟨_, rfl, ?_, ?_⟩
      · simp only
        rw [hxe, List.nil_append]
        exact linked_count_one
          (fun k => lastIdxWith (fun n => n.designation == k) neos0)
          apprs j i0 a0 ha0 hDr
      · simp only
        rw [hdes_eq]
        exact hxdes

/-- C1 witness: the concrete one-NEO, one-approach scenario from the
spec's §8; the single approach resolves to the NEO at position 0 and
its position occurs exactly once in that NEO's collection. -/
theorem claim1_witness :
    ∃ n, (NEODatabase.init
        [NearEarthObject.init (.str "2000433") (.str "Eros") (.str "N") (some 16.84)]
        [CloseApproach.init "2000433" "1900-Dec-27 01:30" 0.15 17.06]).neos[0]? =
        some n ∧
      n.approaches.count 0 = 1 ∧
      n.designation = (CloseApproach.mk "2000433" "1900-Dec-27 01:30" 0.15 17.06
        (PyNeo.obj 0))._designation :=
  claim1_linked_unique _ _
    (by intro n hn; rw [List.mem_singleton] at hn; subst hn; rfl)
    0 0
    (CloseApproach.mk "2000433" "1900-Dec-27 01:30" 0.15 17.06 (PyNeo.obj 0))
    rfl rfl

/-- C5: an approach whose `_designation` resolves to no NEO in the
linking dictionary is left with `neo = None` in `_approaches`, its
position is appended to no NEO's `approaches` collection, and it is
still yielded by an unfiltered `query` over the database. -/
theorem claim5_unresolved (neos0 : List NearEarthObject)
    (apprs : List CloseApproach)
    (hun : ∀ n ∈ neos0, n.approaches = [])
    (j : Nat) (a0 : CloseApproach)
    (hj : apprs[j]? = some a0)
    (hmiss : (NEODatabase.init neos0 apprs).neo_by_designation a0._designation =
      Option.none) :
    (NEODatabase.init neos0 apprs)._approaches[j]? =
      some { a0 with neo := PyNeo.none } ∧
    (∀ (i : Nat) (n : NearEarthObject),
      (NEODatabase.init neos0 apprs).neos[i]? = some n →
      j ∉ n.approaches) ∧
    { a0 with neo := PyNeo.none } ∈ (NEODatabase.init neos0 apprs).query [] := by
  have hmiss' : lastIdxWith (fun n => n.designation == a0._designation) neos0 =
      Option.none := hmiss
  have hneos : (NEODatabase.init neos0 apprs).neos =
      (linkAll (fun k => lastIdxWith (fun n => n.designation == k) neos0)
        neos0 apprs.enum).1 := rfl
  have happ : (NEODatabase.init neos0 apprs)._approaches =
      (linkAll (fun k => lastIdxWith (fun n => n.designation == k) neos0)
        neos0 apprs.enum).2 := rfl
  have h1 : (NEODatabase.init neos0 apprs)._approaches[j]? =
      some { a0 with neo := PyNeo.none } := by
    rw [happ, linkAll_snd, List.getElem?_map, List.getElem?_enum, hj]
    simp [linkedRef, hmiss']
  refine ⟨h1, ?_, ?_⟩
  · intro i n hn
    rw [hneos, linkAll_fst_getElem?] at hn
    cases hx : neos0[i]? with
    | none => rw [hx] at hn; exact absurd hn (by simp)
    | some x =>
      rw [hx, Option.map_some'] at hn
      have hxe : x.approaches = [] := hun x (mem_of_getElem_some hx)
      injection hn with hn2
      rw [← hn2]
      simp only
      rw [hxe, List.nil_append]
      exact linked_not_mem
        (fun k => lastIdxWith (fun n => n.designation == k) neos0)
        apprs j i a0 hj hmiss'
  · exact mem_of_getElem_some h1

/-- C5 witness: the spec's §8 scenario of an approach with designation
`"UNKNOWN-ID"` absent among the NEOs: after construction it carries
`neo = None`, no NEO's collection holds its position, and it is still
in the unfiltered query's output. -/
theorem claim5_witness :
    (NEODatabase.init
        [NearEarthObject.init (.str "2000433") (.str "Eros") (.str "N") (some 16.84)]
        [CloseApproach.init "UNKNOWN-ID" "1900-Jan-01 00:00" 0.5 3.2])._approaches[0]? =
      some { CloseApproach.init "UNKNOWN-ID" "1900-Jan-01 00:00" 0.5 3.2 with
        neo := PyNeo.none } ∧
    (∀ (i : Nat) (n : NearEarthObject), (NEODatabase.init
        [NearEarthObject.init (.str "2000433") (.str "Eros") (.str "N") (some 16.84)]
        [CloseApproach.init "UNKNOWN-ID" "1900-Jan-01 00:00" 0.5 3.2]).neos[i]? =
        some n → 0 ∉ n.approaches) ∧
    { CloseApproach.init "UNKNOWN-ID" "1900-Jan-01 00:00" 0.5 3.2 with
      neo := PyNeo.none } ∈ (NEODatabase.init
        [NearEarthObject.init (.str "2000433") (.str "Eros") (.str "N") (some 16.84)]
        [CloseApproach.init "UNKNOWN-ID" "1900-Jan-01 00:00" 0.5 3.2]).query [] :=
  claim5_unresolved _ _
    (by intro n hn; rw [List.mem_singleton] at hn; subst hn; rfl)
    0 _ rfl rfl
